import Mathlib

/-!
# Verification of the labeled chunked-array core specification

This development embeds, in Lean, the data model and operations of the
deferred chunk-parallel evaluation core described in the repository
specification: labeled arrays, chunked buffers, a lazy task graph with an
explicit compute trigger, the blockwise mapper with metadata inference,
the coordinate-label alignment join, and file round-tripping.  The
repository itself is tutorial material exercising an external library, so
every definition below is modelled from the specification text, and the
theorems settle the specification claims against these models.
-/

set_option autoImplicit false

namespace XCore

/-! ## Element values and element types

Modelled from the spec: combination uses "a type-appropriate sentinel,
e.g. a floating not-a-number value, which forces promotion of integer
data to a floating representation when fills are introduced."
-/

/-- Modelled from the spec: an element type tag, integer or floating. -/
inductive DType where
  | int : DType
  | float : DType
deriving DecidableEq, Repr

/-- Modelled from the spec: a scalar element, either an integer, a finite
floating value (modelled exactly by a rational), or the floating
not-a-number sentinel used for missing-value fills. -/
inductive Scalar where
  | int : Int → Scalar
  | float : Rat → Scalar
  | nan : Scalar
deriving DecidableEq, Repr

/-- Promotion of a scalar to the floating representation, applied when a
missing-value fill forces an integer array to become floating. -/
def Scalar.promote : Scalar → Scalar
  | Scalar.int n => Scalar.float (n : Rat)
  | Scalar.float q => Scalar.float q
  | Scalar.nan => Scalar.nan

/-! ## Alignment join of coordinate labels (spec section 4.3)

Modelled from the spec: "computing, per shared dimension, the
coordinate-label join (outer: union of labels, inner: intersection of
labels — default outer with missing-value fill ...)".
-/

/-- Union of two label lists, keeping the first list's labels and
appending the labels of the second not already present. -/
def listUnion (xs ys : List Int) : List Int :=
  xs ++ ys.filter (fun y => !xs.contains y)

/-- Intersection of two label lists, keeping the first list's order. -/
def listInter (xs ys : List Int) : List Int :=
  xs.filter (fun x => ys.contains x)

/-- Modelled from the spec: a one-dimensional labeled variable along a
shared dimension: coordinate labels, an element type, and one value per
label. -/
structure Var1 where
  labels : List Int
  dtype : DType
  vals : List Scalar
deriving DecidableEq, Repr

/-- Value of a variable at a coordinate label: the value paired with the
first occurrence of the label, if any. -/
def Var1.valueAt (a : Var1) (l : Int) : Option Scalar :=
  (a.labels.zip a.vals).lookup l

/-- Modelled from the spec: reindex a variable onto a new label list,
filling positions whose label the variable lacks with the not-a-number
sentinel; when at least one fill is introduced the data is promoted to
the floating representation. -/
def Var1.reindexFill (a : Var1) (ls : List Int) : Var1 :=
  if ls.all (fun l => a.labels.contains l) then
    { labels := ls
      dtype := a.dtype
      vals := ls.map (fun l => (a.valueAt l).getD Scalar.nan) }
  else
    { labels := ls
      dtype := DType.float
      vals := ls.map (fun l => ((a.valueAt l).getD Scalar.nan).promote) }

/-- Modelled from the spec: combining two variables along a shared
dimension with the default outer join: both operands are reindexed onto
the union of their label lists. -/
def outerJoinVar (a b : Var1) : Var1 × Var1 :=
  let u := listUnion a.labels b.labels
  (a.reindexFill u, b.reindexFill u)

/-- Modelled from the spec: the inner join of two variables along a
shared dimension: both operands are reindexed onto the intersection of
their label lists. -/
def innerJoinVar (a b : Var1) : Var1 × Var1 :=
  let u := listInter a.labels b.labels
  (a.reindexFill u, b.reindexFill u)

/-! ## Lazy task graph and compute trigger (spec sections 3 and 4.2) -/

/-- Modelled from the spec: a Lazy Task Graph node: the identity of the
block it produces (originating variable name and block coordinates), the
indices of its upstream dependency nodes, and a pure block function that
may fail.  Acyclicity is by construction: a node only ever depends on
nodes that precede it in the graph list. -/
structure TaskNode where
  var : String
  coords : List Nat
  deps : List Nat
  fn : List (List Rat) → Except String (List Rat)

/-- Identity of a node: originating variable name and block coordinates. -/
def nodeId (n : TaskNode) : String × List Nat :=
  (n.var, n.coords)

/-- Modelled from the spec: the error produced when a node's function
raises during a compute walk, carrying the failing node's identity
(variable name and block coordinates) and the underlying message. -/
structure ExecError where
  var : String
  coords : List Nat
  msg : String
deriving DecidableEq, Repr

/-- One compute walk over the remaining nodes of a graph in dependency
order.  The cache holds the results of already-executed nodes; the trace
records each invocation of a node's function, which is the side-effect
log of the walk.  On failure the walk stops at once: the error carries
the failing node's identity, the cached sibling results are discarded,
and no partial result is returned. -/
def runGraph : List TaskNode → List (List Rat) → List (String × List Nat) →
    Except ExecError (List (List Rat)) × List (String × List Nat)
  | [], cache, trace => (Except.ok cache, trace)
  | n :: rest, cache, trace =>
    match n.fn (n.deps.map (fun j => cache.getD j [])) with
    | Except.error m =>
      (Except.error ⟨n.var, n.coords, m⟩, trace ++ [nodeId n])
    | Except.ok v => runGraph rest (cache ++ [v]) (trace ++ [nodeId n])

/-- Modelled from the spec: the materialization walk over a whole graph,
starting from an empty cache and an empty side-effect trace. -/
def evalGraph (g : List TaskNode) :
    Except ExecError (List (List Rat)) × List (String × List Nat) :=
  runGraph g [] []

/-- Modelled from the spec: the raw data of a labeled array: either a
concrete in-memory buffer or a lazy chunked buffer described by a task
graph together with the indices of its output block nodes. -/
inductive Buffer where
  | concrete : List Rat → Buffer
  | lazy : List TaskNode → List Nat → Buffer

/-- Whether a buffer is concrete (eagerly realized, non-lazy). -/
def Buffer.isConcrete : Buffer → Bool
  | Buffer.concrete _ => true
  | Buffer.lazy _ _ => false

/-- Modelled from the spec: a Labeled Array: optional name, ordered
dimension names, shape, coordinate mapping, free-form attributes, and
raw data (concrete or a Chunked Buffer reference). -/
structure LArr where
  name : String
  dims : List String
  shape : List Nat
  coords : List (String × List Rat)
  attrs : List (String × String)
  buffer : Buffer

/-- Materialized data of a lazy buffer: the output blocks' cached
results concatenated in grid order. -/
def gatherOutputs (outs : List Nat) (cache : List (List Rat)) : List Rat :=
  (outs.map (fun j => cache.getD j [])).flatten

/-- Materialize a buffer: a concrete buffer needs no walk; a lazy buffer
triggers the materialization walk of its graph, and on success the
realized output blocks replace the graph.  The second component is the
side-effect trace of the walk. -/
def computeBuffer : Buffer → Except ExecError Buffer × List (String × List Nat)
  | Buffer.concrete d => (Except.ok (Buffer.concrete d), [])
  | Buffer.lazy g outs =>
    ((evalGraph g).1.map (fun cache => Buffer.concrete (gatherOutputs outs cache)),
      (evalGraph g).2)

/-- Modelled from the spec: the compute trigger: a full graph walk that
returns a new object identical in labeling and metadata but backed by
concrete non-lazy data.  The second component is the side-effect trace
of the call. -/
def computeOp (a : LArr) : Except ExecError LArr × List (String × List Nat) :=
  ((computeBuffer a.buffer).1.map (fun nb => { a with buffer := nb }),
    (computeBuffer a.buffer).2)

/-- Modelled from the spec: load, the materialization variant whose
result replaces the object's lazy chunked-buffer reference; it performs
the same full walk as compute. -/
def loadOp (a : LArr) : Except ExecError LArr × List (String × List Nat) :=
  computeOp a

/-! ## Lazy graph-building operations (spec sections 4.1 and 4.2)

Modelled from the spec: "mutation" operations (slicing, arithmetic,
reduction) always produce new instances layering new Task Graph nodes
over the old Chunked Buffer; none of them executes anything.  Each
operation below returns the new object together with its side-effect
trace, which construction leaves empty.
-/

/-- View a buffer as a graph with output nodes, so that layering
operations apply uniformly; a concrete buffer becomes a single source
node. -/
def toLazy : Buffer → List TaskNode × List Nat
  | Buffer.concrete d => ([⟨"source", [0], [], fun _ => Except.ok d⟩], [0])
  | Buffer.lazy g outs => (g, outs)

/-- Modelled from the spec: layer one new node per output block of the
input, each applying a per-block function to the corresponding block.
This is the graph-building step shared by the blockwise map, reduction,
slicing and rolling operations; it builds nodes and invokes nothing. -/
def layerBlockwise (opname : String) (f : List Rat → List Rat) (a : LArr) :
    LArr × List (String × List Nat) :=
  let go := toLazy a.buffer
  let n := go.1.length
  let newNodes := go.2.enum.map (fun ij =>
    (⟨opname ++ "(" ++ a.name ++ ")", [ij.1], [ij.2],
      fun xs => Except.ok (f (xs.getD 0 []))⟩ : TaskNode))
  let newBuf :=
    Buffer.lazy (go.1 ++ newNodes) ((List.range go.2.length).map (fun i => n + i))
  ({ a with buffer := newBuf }, [])

/-- Modelled from the spec: layer one new node consuming all output
blocks of the input at once, used when the user function must see the
whole object. -/
def layerWhole (opname : String) (f : List Rat → List Rat) (a : LArr) :
    LArr × List (String × List Nat) :=
  let go := toLazy a.buffer
  let node : TaskNode :=
    ⟨opname ++ "(" ++ a.name ++ ")", [0], go.2, fun xs => Except.ok (f xs.flatten)⟩
  ({ a with buffer := Buffer.lazy (go.1 ++ [node]) [go.1.length] }, [])

/-- Arithmetic mean of a list of rationals (zero on the empty list). -/
def meanList (xs : List Rat) : Rat :=
  xs.sum / xs.length

/-- Trailing rolling mean with window w over a list. -/
def rollingList (w : Nat) (xs : List Rat) : List Rat :=
  (List.range xs.length).map (fun i => meanList ((xs.take (i + 1)).drop (i + 1 - w)))

/-- Modelled from the spec: the whole-object blockwise map operation:
build new graph nodes applying the user function to each block; lazy,
executes nothing. -/
def mapBlocksOp (f : List Rat → List Rat) (a : LArr) :
    LArr × List (String × List Nat) :=
  layerBlockwise "map_blocks" f a

/-- Modelled from the spec: a built-in whole-object reduction (mean over
a named dimension) as a lazy graph-layering operation: the named
dimension is removed from the declared dims and shape and reduction
nodes are layered over the old buffer. -/
def meanOp (d : String) (a : LArr) : LArr × List (String × List Nat) :=
  let p := a.dims.indexOf d
  let br := layerBlockwise "mean" (fun xs => [meanList xs]) a
  ({ br.1 with dims := a.dims.eraseIdx p, shape := a.shape.eraseIdx p }, br.2)

/-- Modelled from the spec: positional slicing as a lazy graph-layering
operation. -/
def iselOp (d : String) (i : Nat) (a : LArr) : LArr × List (String × List Nat) :=
  let p := a.dims.indexOf d
  let br := layerBlockwise "isel" (fun xs => [xs.getD i 0]) a
  ({ br.1 with dims := a.dims.eraseIdx p, shape := a.shape.eraseIdx p }, br.2)

/-- Modelled from the spec: a rolling-window mean as a lazy
graph-layering operation; dims and shape are unchanged. -/
def rollingMeanOp (w : Nat) (a : LArr) : LArr × List (String × List Nat) :=
  layerBlockwise "rolling_mean" (rollingList w) a

/-! ## The low-level blockwise apply operation and its execution hint -/

/-- Modelled from the spec and the notebook: the two explicit dask
handling modes of the low-level blockwise apply operation: "allowed"
passes the lazy object to the user function whole, "parallelized"
applies the function over blocks. -/
inductive DaskMode where
  | allowed : DaskMode
  | parallelized : DaskMode
deriving DecidableEq, Repr

/-- Modelled from the spec: errors surfaced while building a graph:
automatic shape/dtype probing failed (InferenceError), incompatible
block boundaries (AlignmentError), or a lazy input reached an operation
that was not told how to handle laziness. -/
inductive CoreError where
  | inference : String → CoreError
  | alignment : String → CoreError
  | daskRefused : String → CoreError
deriving DecidableEq, Repr

/-- Modelled from the spec and the notebook: the low-level blockwise
apply operation.  A lazy chunked-buffer-backed input with no explicit
execution hint is refused with an error instead of computing or
materializing; with the "allowed" hint the user function receives the
lazy object whole as one layered node; with "parallelized" it is layered
blockwise.  A concrete input is applied eagerly. -/
def apply_ufunc (f : List Rat → List Rat) (hint : Option DaskMode) (a : LArr) :
    Except CoreError (LArr × List (String × List Nat)) :=
  match a.buffer, hint with
  | Buffer.lazy _ _, Option.none =>
    Except.error (CoreError.daskRefused
      "apply_ufunc encountered a chunked array and no dask hint was given")
  | Buffer.lazy _ _, Option.some DaskMode.allowed =>
    Except.ok (layerWhole "apply_ufunc" f a)
  | Buffer.lazy _ _, Option.some DaskMode.parallelized =>
    Except.ok (layerBlockwise "apply_ufunc" f a)
  | Buffer.concrete d, _ =>
    Except.ok ({ a with buffer := Buffer.concrete (f d) }, [])

/-! ## Blockwise mapper metadata inference (spec section 4.1) -/

/-- Modelled from the spec: a template: a fully-specified empty-shaped
result description: output dimension names, shape pattern, element type
and attribute structure, trusted without probing when supplied. -/
structure Template where
  dims : List String
  shape : List Nat
  dtype : DType
  attrs : List (String × String)
deriving DecidableEq, Repr

/-- Modelled from the spec: a concrete labeled object as seen by a user
function of the whole-object blockwise map: structure plus data. -/
structure NdObj where
  dims : List String
  shape : List Nat
  dtype : DType
  data : List Rat
  attrs : List (String × String)
deriving DecidableEq, Repr

/-- Modelled from the spec: a user function of the whole-object
blockwise map: consumes and returns labeled objects and may fail, for
example on an empty input it cannot tolerate. -/
structure UserFn where
  run : NdObj → Except String NdObj

/-- Modelled from the spec: the zero-sized slice of an input passed to
the inference probe: the same structure with every extent zero and no
data. -/
def zeroSlice (a : LArr) (dt : DType) : NdObj :=
  { dims := a.dims, shape := a.shape.map (fun _ => 0), dtype := dt
    data := [], attrs := a.attrs }

/-- The output structure observed on a probe result. -/
def templateOf (o : NdObj) : Template :=
  ⟨o.dims, o.shape, o.dtype, o.attrs⟩

/-- Modelled from the spec: build the lazy blockwise-map result from the
input and the output metadata: one new node per block, each invoking the
user function on that block's realized contents. -/
def buildMapBlocks (f : UserFn) (a : LArr) (dt : DType) (t : Template) :
    LArr × Template :=
  let br := layerBlockwise "map_blocks"
    (fun xs =>
      match f.run { dims := a.dims, shape := a.shape, dtype := dt
                    data := xs, attrs := a.attrs } with
      | Except.error _ => []
      | Except.ok r => r.data) a
  ({ br.1 with dims := t.dims, shape := t.shape, attrs := t.attrs }, t)

/-- Modelled from the spec: the blockwise mapper with metadata
inference.  With no template, the user function is invoked exactly once
on the zero-sized slice of the input; if it cannot tolerate the empty
input the mapper fails with an InferenceError, otherwise the observed
structure becomes the output metadata.  With an explicit template the
probe is bypassed entirely and the template is trusted.  The graph is
built lazily either way.  The second component counts probe invocations
of the user function during graph construction. -/
def map_blocks (f : UserFn) (a : LArr) (dt : DType) (tmpl : Option Template) :
    Except CoreError (LArr × Template) × Nat :=
  match tmpl with
  | Option.some t => (Except.ok (buildMapBlocks f a dt t), 0)
  | Option.none =>
    match f.run (zeroSlice a dt) with
    | Except.error m => (Except.error (CoreError.inference m), 1)
    | Except.ok probe => (Except.ok (buildMapBlocks f a dt (templateOf probe)), 1)

/-- The final materialized result of a blockwise map: none when graph
construction or the compute walk failed. -/
def materializeResult : Except CoreError (LArr × Template) → Option LArr
  | Except.error _ => Option.none
  | Except.ok bt =>
    match (computeOp bt.1).1 with
    | Except.error _ => Option.none
    | Except.ok c => Option.some c

/-! ## File round-tripping (spec section 6) -/

/-- Modelled from the spec: a stored variable of a dataset: name,
dimension names, shape, element type, flattened data, attributes. -/
structure NcVar where
  name : String
  dims : List String
  shape : List Nat
  dtype : DType
  data : List Scalar
  attrs : List (String × String)
deriving DecidableEq, Repr

/-- Modelled from the spec: a Labeled Dataset: data variables, shared
coordinate variables, and dataset-level attributes. -/
structure NcDataset where
  vars : List NcVar
  coords : List NcVar
  attrs : List (String × String)
deriving DecidableEq, Repr

/-- Modelled from the spec: the self-describing binary container: a
dimension table collected from every stored variable, one record per
variable flagged as coordinate or data, and the global attributes. -/
structure NcFile where
  dimTable : List (String × Nat)
  records : List (NcVar × Bool)
  globalAttrs : List (String × String)
deriving DecidableEq, Repr

/-- Modelled from the spec: serialize a dataset to the container format:
coordinates are written first, flagged as coordinates, then the data
variables; the dimension table lists each variable's dimensions with
their sizes. -/
def to_netcdf (ds : NcDataset) : NcFile :=
  { dimTable := ((ds.coords ++ ds.vars).map (fun v => v.dims.zip v.shape)).flatten
    records := ds.coords.map (fun v => (v, true)) ++ ds.vars.map (fun v => (v, false))
    globalAttrs := ds.attrs }

/-- Modelled from the spec: deserialize a container file back to a
dataset: records flagged as coordinates become the coordinate mapping,
the rest the data variables. -/
def open_dataset (f : NcFile) : NcDataset :=
  { vars := (f.records.filter (fun r => !r.2)).map (fun r => r.1)
    coords := (f.records.filter (fun r => r.2)).map (fun r => r.1)
    attrs := f.globalAttrs }

/-- Modelled from the spec: the structural equality check on datasets:
variables (with their dimension names, shapes, element types, data and
attributes), coordinates, and dataset attributes must all agree. -/
def identicalDs (a b : NcDataset) : Bool :=
  decide (a.vars = b.vars) && decide (a.coords = b.coords) &&
    decide (a.attrs = b.attrs)

/-! ## Blockwise reduction over a named core dimension (spec sections 4.1 and 8)

Modelled from the spec: core dimensions are "dimensions the function
must see in full, never split across blocks"; the blockwise map invokes
the function "for each coordinate in the non-core dimension grid ... on
the corresponding aligned blocks".
-/

/-- Modelled from the spec: an N-dimensional labeled array viewed as a
total function from index vectors, with named dimensions and a shape. -/
structure NdArr where
  dims : List String
  shape : List Nat
  val : List Nat → Rat

/-- Insert a value at position p of a list (at the end when p exceeds
the length). -/
def insAt {α : Type*} : Nat → α → List α → List α
  | 0, x, l => x :: l
  | _ + 1, x, [] => [x]
  | p + 1, x, y :: l => y :: insAt p x l

/-- Modelled from the spec: a whole-object reduction over the dimension
at position p: the output drops that dimension from dims and shape, and
each output value applies the fiber function g to the full fiber along
that dimension. -/
def reduceAxis (g : List Rat → Rat) (p : Nat) (A : NdArr) : NdArr :=
  { dims := A.dims.eraseIdx p
    shape := A.shape.eraseIdx p
    val := fun idx =>
      g ((List.range (A.shape.getD p 0)).map (fun j => A.val (insAt p j idx))) }

/-- The block index and within-block offset of a global coordinate
under a list of chunk sizes. -/
def findBlock : List Nat → Nat → Nat × Nat
  | [], gi => (0, gi)
  | c :: cs, gi =>
    if gi < c then (0, gi)
    else
      let bo := findBlock cs (gi - c)
      (bo.1 + 1, bo.2)

/-- Per-dimension within-block offsets of the block containing a
non-core index vector, under a non-core chunk specification. -/
def blockOffsets (cs : List (List Nat)) (idx : List Nat) : List Nat :=
  (cs.zip idx).map (fun ci => (findBlock ci.1 ci.2).2)

/-- Per-dimension starts of the block containing a non-core index
vector. -/
def blockStarts (cs : List (List Nat)) (idx : List Nat) : List Nat :=
  List.zipWith (fun gi o => gi - o) idx (blockOffsets cs idx)

/-- Per-dimension lengths of the block containing a non-core index
vector. -/
def blockLens (cs : List (List Nat)) (idx : List Nat) : List Nat :=
  (cs.zip idx).map (fun ci => ci.1.getD (findBlock ci.1 ci.2).1 0)

/-- Modelled from the spec: the aligned input block for the output
coordinate idx of a blockwise reduction whose core dimension sits at
position p: the block holds the core dimension in full (start zero,
full extent) and the containing chunk along every other dimension. -/
def blockAt (p : Nat) (A : NdArr) (cs : List (List Nat)) (idx : List Nat) :
    NdArr :=
  { dims := A.dims
    shape := insAt p (A.shape.getD p 0) (blockLens cs idx)
    val := fun j =>
      A.val (List.zipWith (fun s k => s + k) (insAt p 0 (blockStarts cs idx)) j) }

/-- Modelled from the spec: the blockwise application of a reduction
over the core dimension at position p under a chunk specification for
all input dimensions: each output value applies the reduction to the
block containing that coordinate — in which the core dimension is never
split, whatever its entry in the chunk specification says — and reads
the result at the within-block offset. -/
def blockwiseReduce (g : List Rat → Rat) (p : Nat) (A : NdArr)
    (cs : List (List Nat)) : NdArr :=
  { dims := A.dims.eraseIdx p
    shape := A.shape.eraseIdx p
    val := fun idx =>
      (reduceAxis g p (blockAt p A (cs.eraseIdx p) idx)).val
        (blockOffsets (cs.eraseIdx p) idx) }

/-- Example three-dimensional array over lat, time, lon used by the
core-dimension reduction witness. -/
def arrEx : NdArr :=
  { dims := ["lat", "time", "lon"]
    shape := [2, 5, 3]
    val := fun idx => ((idx.foldl (fun acc i => acc * 10 + i) 0 : Nat) : Rat) }

/-! ## Concrete examples used by the witnesses -/

/-- Example user function that fails on an empty input. -/
def fEmptyFail : UserFn :=
  ⟨fun o => if o.data.isEmpty then Except.error "empty" else Except.ok o⟩

/-- Example user function that returns its input unchanged. -/
def fIdent : UserFn :=
  ⟨fun o => Except.ok o⟩

/-- Example explicit output template. -/
def tmplEx : Template :=
  ⟨["x"], [0], DType.float, [("units", "K")]⟩

/-- Example source node producing the first block of variable air. -/
def okNode1 : TaskNode :=
  ⟨"air", [0], [], fun _ => Except.ok [1, 2]⟩

/-- Example source node producing the second block of variable air. -/
def okNode2 : TaskNode :=
  ⟨"air", [1], [], fun _ => Except.ok [3, 4]⟩

/-- Example node at block coordinates 2,3 whose function raises. -/
def badNode : TaskNode :=
  ⟨"air", [2, 3], [0], fun _ => Except.error "boom"⟩

/-- Example sibling node scheduled after the failing node. -/
def postNode : TaskNode :=
  ⟨"air", [4], [], fun _ => Except.ok [5]⟩

/-- Example lazy labeled array with two blocks. -/
def lazyEx : LArr :=
  { name := "air", dims := ["x"], shape := [4]
    coords := [("x", [0, 1, 2, 3])], attrs := [("units", "K")]
    buffer := Buffer.lazy [okNode1, okNode2] [0, 1] }

/-- The materialization of the example lazy array. -/
def computedEx : LArr :=
  { lazyEx with buffer := Buffer.concrete [1, 2, 3, 4] }

/-- Example lazy labeled array whose graph contains a failing node at
block coordinates 2,3 followed by a sibling node. -/
def failEx : LArr :=
  { lazyEx with buffer := Buffer.lazy [okNode1, okNode2, badNode, postNode] [3] }

/-- Example variable along dimension x with labels 1, 2, 3 and integer
data, as in the alignment-join property of the specification. -/
def aEx : Var1 :=
  { labels := [1, 2, 3], dtype := DType.int
    vals := [Scalar.int 10, Scalar.int 20, Scalar.int 30] }

/-- Example variable along dimension x with labels 2, 3, 4 and integer
data, as in the alignment-join property of the specification. -/
def bEx : Var1 :=
  { labels := [2, 3, 4], dtype := DType.int
    vals := [Scalar.int 2, Scalar.int 3, Scalar.int 4] }

theorem mem_listUnion (xs ys : List Int) (l : Int) :
    l ∈ listUnion xs ys ↔ l ∈ xs ∨ l ∈ ys := by
  simp only [listUnion, List.mem_append, List.mem_filter,
    Bool.not_eq_true']
  constructor
  · rintro (h | ⟨h, -⟩)
    · exact Or.inl h
    · exact Or.inr h
  · rintro (h | h)
    · exact Or.inl h
    · by_cases hx : l ∈ xs
      · exact Or.inl hx
      · exact Or.inr ⟨h, by simpa using hx⟩

theorem mem_listInter (xs ys : List Int) (l : Int) :
    l ∈ listInter xs ys ↔ l ∈ xs ∧ l ∈ ys := by
  simp [listInter, List.mem_filter]

theorem all_contains_false (a : Var1) (ls : List Int) (l : Int)
    (hl : l ∈ ls) (hmem : l ∉ a.labels) :
    ls.all (fun x => a.labels.contains x) = false := by
  rw [List.all_eq_false]
  exact ⟨l, hl, by simpa using hmem⟩

theorem valueAt_none_of_missing (a : Var1) (l : Int) (hmem : l ∉ a.labels) :
    a.valueAt l = none := by
  unfold Var1.valueAt
  rw [List.lookup_eq_none_iff]
  intro p hp
  have hz := List.of_mem_zip hp
  simp only [bne_iff_ne]
  intro hk
  exact hmem (hk ▸ hz.1)

theorem reindexFill_vals_of_missing (a : Var1) (ls : List Int) (l : Int)
    (hl : l ∈ ls) (hmem : l ∉ a.labels) :
    ((a.reindexFill ls).labels.zip (a.reindexFill ls).vals).lookup l =
      some Scalar.nan := by
  have hva : a.valueAt l = none := valueAt_none_of_missing a l hmem
  unfold Var1.reindexFill
  rw [all_contains_false a ls l hl hmem]
  simp only [if_neg Bool.false_ne_true]
  induction ls with
  | nil => cases hl
  | cons x xs ih =>
      rcases List.mem_cons.mp hl with h | h
      · subst h
        simp [List.lookup, hva, Scalar.promote]
      · by_cases hxl : x = l
        · subst hxl
          simp [List.lookup, hva, Scalar.promote]
        · have hbx : (l == x) = false := by
            rw [beq_eq_false_iff_ne]
            exact fun h => hxl h.symm
          simpa [List.lookup, hbx, List.zip] using ih h

theorem reindexFill_dtype_promotes (a : Var1) (ls : List Int) (l : Int)
    (hl : l ∈ ls) (hmem : l ∉ a.labels) :
    (a.reindexFill ls).dtype = DType.float := by
  unfold Var1.reindexFill
  rw [all_contains_false a ls l hl hmem]
  simp

theorem reindexFill_dtype_kept (a : Var1) (ls : List Int)
    (h : ∀ l ∈ ls, l ∈ a.labels) :
    (a.reindexFill ls).dtype = a.dtype := by
  have htrue : ls.all (fun x => a.labels.contains x) = true := by
    rw [List.all_eq_true]
    intro l hl
    simpa using h l hl
  unfold Var1.reindexFill
  rw [htrue]
  simp

theorem reindexFill_labels (a : Var1) (ls : List Int) :
    (a.reindexFill ls).labels = ls := by
  unfold Var1.reindexFill
  split <;> rfl

/-- Claim C5: combining two labeled variables with differing coordinate
labels along a shared dimension with the default outer join produces the
union of the labels, fills each operand's non-overlapping positions with
the floating not-a-number sentinel, and promotes integer data to the
floating representation when fills are introduced; the inner join
produces the intersection of the labels. -/
theorem outerJoin_union_fill_promote_innerJoin_inter (a b : Var1) :
    ((outerJoinVar a b).1.labels = listUnion a.labels b.labels ∧
      ∀ l, l ∈ (outerJoinVar a b).1.labels ↔ (l ∈ a.labels ∨ l ∈ b.labels)) ∧
    (∀ l, l ∈ listUnion a.labels b.labels → l ∉ a.labels →
      (outerJoinVar a b).1.valueAt l = some Scalar.nan) ∧
    (∀ l, l ∈ listUnion a.labels b.labels → l ∉ b.labels →
      (outerJoinVar a b).2.valueAt l = some Scalar.nan) ∧
    (a.dtype = DType.int → (∃ l, l ∈ b.labels ∧ l ∉ a.labels) →
      (outerJoinVar a b).1.dtype = DType.float) ∧
    ((innerJoinVar a b).1.labels = listInter a.labels b.labels ∧
      ∀ l, l ∈ (innerJoinVar a b).1.labels ↔ (l ∈ a.labels ∧ l ∈ b.labels)) := by
  refine ⟨⟨reindexFill_labels a _, ?_⟩, ?_, ?_, ?_, ⟨reindexFill_labels a _, ?_⟩⟩
  · intro l
    show l ∈ (a.reindexFill (listUnion a.labels b.labels)).labels ↔ _
    rw [reindexFill_labels]
    exact mem_listUnion a.labels b.labels l
  · intro l hl hmem
    exact reindexFill_vals_of_missing a _ l hl hmem
  · intro l hl hmem
    exact reindexFill_vals_of_missing b _ l hl hmem
  · intro _ hfill
    obtain ⟨l, hlb, hla⟩ := hfill
    exact reindexFill_dtype_promotes a _ l
      ((mem_listUnion a.labels b.labels l).mpr (Or.inr hlb)) hla
  · intro l
    show l ∈ (a.reindexFill (listInter a.labels b.labels)).labels ↔ _
    rw [reindexFill_labels]
    exact mem_listInter a.labels b.labels l

/-- Witness for claim C5 at the specification's example: labels 1,2,3
joined with labels 2,3,4 give outer union 1,2,3,4 with a not-a-number
fill at label 4 for the first operand, promoted integer data, and inner
intersection 2,3. -/
theorem outerJoin_union_fill_promote_innerJoin_inter_witness :
    (outerJoinVar aEx bEx).1.labels = [1, 2, 3, 4] ∧
    (outerJoinVar aEx bEx).1.valueAt 4 = some Scalar.nan ∧
    (outerJoinVar aEx bEx).1.dtype = DType.float ∧
    (innerJoinVar aEx bEx).1.labels = [2, 3] :=
  ⟨by decide,
    (outerJoin_union_fill_promote_innerJoin_inter aEx bEx).2.1 4 (by decide)
      (by decide),
    (outerJoin_union_fill_promote_innerJoin_inter aEx bEx).2.2.2.1 rfl
      ⟨4, by decide, by decide⟩,
    by decide⟩

/-! ## Properties of the compute walk -/

theorem runGraph_trace (g : List TaskNode) :
    ∀ cache trace, ∃ k,
      (runGraph g cache trace).2 = trace ++ (g.map nodeId).take k := by
  induction g with
  | nil =>
      intro cache trace
      exact ⟨0, by simp [runGraph]⟩
  | cons n rest ih =>
      intro cache trace
      cases hfn : n.fn (n.deps.map (fun j => cache.getD j [])) with
      | error m =>
          refine ⟨1, ?_⟩
          rw [runGraph, hfn]
          rfl
      | ok v =>
          obtain ⟨k, hk⟩ := ih (cache ++ [v]) (trace ++ [nodeId n])
          refine ⟨k + 1, ?_⟩
          rw [runGraph, hfn, hk]
          simp

theorem runGraph_append (pre rest : List TaskNode) :
    ∀ cache trace cache₂ trace₂,
      runGraph pre cache trace = (Except.ok cache₂, trace₂) →
      runGraph (pre ++ rest) cache trace = runGraph rest cache₂ trace₂ := by
  induction pre with
  | nil =>
      intro cache trace cache₂ trace₂ h
      simp only [runGraph, Prod.mk.injEq] at h
      obtain ⟨h₁, h₂⟩ := h
      cases Except.ok.inj h₁
      cases h₂
      rfl
  | cons n pre' ih =>
      intro cache trace cache₂ trace₂ h
      cases hfn : n.fn (n.deps.map (fun j => cache.getD j [])) with
      | error m =>
          rw [runGraph, hfn] at h
          cases h
      | ok v =>
          rw [List.cons_append, runGraph, hfn]
          rw [runGraph, hfn] at h
          exact ih _ _ _ _ h

theorem computeOp_trace (a : LArr) (g : List TaskNode) (outs : List Nat)
    (hbuf : a.buffer = Buffer.lazy g outs) :
    (computeOp a).2 = (evalGraph g).2 := by
  unfold computeOp
  rw [hbuf, computeBuffer]

theorem computeOk_parts (a b : LArr) (h : (computeOp a).1 = Except.ok b) :
    ∃ nb, (computeBuffer a.buffer).1 = Except.ok nb ∧ b = { a with buffer := nb } := by
  unfold computeOp at h
  cases hcb : (computeBuffer a.buffer).1 with
  | error e => rw [hcb] at h; cases h
  | ok nb =>
      rw [hcb] at h
      exact ⟨nb, rfl, (Except.ok.inj h).symm⟩

theorem computeBuffer_ok_concrete (bf nb : Buffer)
    (h : (computeBuffer bf).1 = Except.ok nb) : nb.isConcrete = true := by
  cases bf with
  | concrete d =>
      rw [computeBuffer] at h
      cases Except.ok.inj h
      rfl
  | lazy g outs =>
      rw [computeBuffer] at h
      cases he : (evalGraph g).1 with
      | error e => rw [he] at h; cases h
      | ok cache =>
          rw [he] at h
          cases Except.ok.inj h
          rfl

theorem computeOk_concrete (a b : LArr) (h : (computeOp a).1 = Except.ok b) :
    b.buffer.isConcrete = true := by
  obtain ⟨nb, hnb, hb⟩ := computeOk_parts a b h
  rw [hb]
  exact computeBuffer_ok_concrete a.buffer nb hnb

theorem concrete_computeOp (b : LArr) (h : b.buffer.isConcrete = true) :
    computeOp b = (Except.ok b, []) := by
  unfold computeOp
  cases hb : b.buffer with
  | concrete d =>
      rw [computeBuffer]
      simp only [Except.map]
      rw [← hb]
  | lazy g outs => rw [hb] at h; cases h

/-- Claim C3: a concrete materialization of a lazy labeled array via
compute or load replaces the lazy chunked-buffer reference with an
eagerly realized buffer, returning a result identical in labeling and
metadata but backed by concrete non-lazy data. -/
theorem compute_load_replaces_lazy_buffer (a b : LArr)
    (h : (computeOp a).1 = Except.ok b) :
    b.buffer.isConcrete = true ∧ b.name = a.name ∧ b.dims = a.dims ∧
    b.shape = a.shape ∧ b.coords = a.coords ∧ b.attrs = a.attrs ∧
    (loadOp a).1 = Except.ok b := by
  obtain ⟨nb, hnb, hb⟩ := computeOk_parts a b h
  subst hb
  exact ⟨computeBuffer_ok_concrete a.buffer nb hnb, rfl, rfl, rfl, rfl, rfl, h⟩

/-- Witness for claim C3: computing the two-block example lazy array
yields its materialization, with concrete data and unchanged labeling
and metadata, via compute and via load. -/
theorem compute_load_replaces_lazy_buffer_witness :
    (computeOp lazyEx).1 = Except.ok computedEx ∧
    computedEx.buffer.isConcrete = true ∧ computedEx.name = lazyEx.name ∧
    computedEx.dims = lazyEx.dims ∧ computedEx.shape = lazyEx.shape ∧
    computedEx.coords = lazyEx.coords ∧ computedEx.attrs = lazyEx.attrs ∧
    (loadOp lazyEx).1 = Except.ok computedEx :=
  have h : (computeOp lazyEx).1 = Except.ok computedEx := rfl
  have hc := compute_load_replaces_lazy_buffer lazyEx computedEx h
  ⟨h, hc.1, hc.2.1, hc.2.2.1, hc.2.2.2.1, hc.2.2.2.2.1, hc.2.2.2.2.2.1,
    hc.2.2.2.2.2.2⟩

/-- Claim C4: materialization is idempotent: computing an already
computed labeled array yields the same result again. -/
theorem compute_idempotent (a b : LArr) (h : (computeOp a).1 = Except.ok b) :
    (computeOp b).1 = Except.ok b := by
  have hconc := computeOk_concrete a b h
  rw [concrete_computeOp b hconc]

/-- Witness for claim C4: computing the example lazy array once and then
computing the result again returns that result unchanged. -/
theorem compute_idempotent_witness :
    (computeOp lazyEx).1 = Except.ok computedEx ∧
    (computeOp computedEx).1 = Except.ok computedEx :=
  ⟨rfl, compute_idempotent lazyEx computedEx rfl⟩

/-- Claim C2: building the lazy operation graph (blockwise map,
reduction, slicing, rolling) executes nothing and has an empty
side-effect trace; the block functions run only during a materialization
walk, each graph node at most once, and every traced invocation belongs
to a node of the graph. -/
theorem graph_build_pure_effects_once
    (f : List Rat → List Rat) (d : String) (i w : Nat) (a : LArr)
    (g : List TaskNode) (outs : List Nat)
    (hbuf : a.buffer = Buffer.lazy g outs)
    (hnd : (g.map nodeId).Nodup) :
    (mapBlocksOp f a).2 = [] ∧ (meanOp d a).2 = [] ∧
    (iselOp d i a).2 = [] ∧ (rollingMeanOp w a).2 = [] ∧
    (computeOp a).2.Nodup ∧
    (∀ nid, nid ∈ (computeOp a).2 → nid ∈ g.map nodeId) := by
  have htr : (computeOp a).2 = (evalGraph g).2 := computeOp_trace a g outs hbuf
  obtain ⟨k, hk⟩ := runGraph_trace g [] []
  have hev : (computeOp a).2 = (g.map nodeId).take k := by
    rw [htr]
    unfold evalGraph
    rw [hk]
    simp
  refine ⟨rfl, rfl, rfl, rfl, ?_, ?_⟩
  · rw [hev]
    exact hnd.sublist ((g.map nodeId).take_sublist k)
  · intro nid hmem
    rw [hev] at hmem
    exact ((g.map nodeId).take_sublist k).subset hmem

/-- Witness for claim C2: on the two-block example array the four
graph-building operations have empty traces and the compute trace
invokes each block at most once. -/
theorem graph_build_pure_effects_once_witness :
    (mapBlocksOp id lazyEx).2 = [] ∧ (meanOp "x" lazyEx).2 = [] ∧
    (iselOp "x" 0 lazyEx).2 = [] ∧ (rollingMeanOp 1 lazyEx).2 = [] ∧
    (computeOp lazyEx).2.Nodup :=
  have h := graph_build_pure_effects_once id "x" 0 1 lazyEx
    [okNode1, okNode2] [0, 1] rfl (by decide)
  ⟨h.1, h.2.1, h.2.2.1, h.2.2.2.1, h.2.2.2.2.1⟩

/-- Claim C8: when a node's function raises during a compute call, the
whole call fails with an execution error naming exactly the failing
node's variable and block coordinates, no partial result is returned,
and the trace shows sibling nodes after the failure were never invoked
(their cached results are discarded with the walk). -/
theorem compute_failure_names_failing_block
    (a : LArr) (pre post : List TaskNode) (bad : TaskNode)
    (outs : List Nat) (cache₂ : List (List Rat))
    (trace₂ : List (String × List Nat)) (m : String)
    (hbuf : a.buffer = Buffer.lazy (pre ++ bad :: post) outs)
    (hpre : runGraph pre [] [] = (Except.ok cache₂, trace₂))
    (hbad : bad.fn (bad.deps.map (fun j => cache₂.getD j [])) = Except.error m) :
    (computeOp a).1 = Except.error ⟨bad.var, bad.coords, m⟩ ∧
    (∀ b, (computeOp a).1 ≠ Except.ok b) ∧
    (computeOp a).2 = trace₂ ++ [nodeId bad] := by
  have heval : evalGraph (pre ++ bad :: post) =
      (Except.error ⟨bad.var, bad.coords, m⟩, trace₂ ++ [nodeId bad]) := by
    unfold evalGraph
    rw [runGraph_append pre (bad :: post) [] [] cache₂ trace₂ hpre]
    rw [runGraph, hbad]
  have h1 : (computeOp a).1 = Except.error ⟨bad.var, bad.coords, m⟩ := by
    unfold computeOp
    rw [hbuf, computeBuffer, heval]
    rfl
  refine ⟨h1, ?_, ?_⟩
  · intro b hcontr
    rw [h1] at hcontr
    cases hcontr
  · unfold computeOp
    rw [hbuf, computeBuffer, heval]

/-- Witness for claim C8: on the example graph whose node at block
coordinates 2,3 raises, compute fails naming variable air and block
2,3, and the sibling scheduled after the failure never appears in the
trace. -/
theorem compute_failure_names_failing_block_witness :
    (computeOp failEx).1 = Except.error ⟨"air", [2, 3], "boom"⟩ ∧
    (computeOp failEx).2 = [("air", [0]), ("air", [1]), ("air", [2, 3])] :=
  have h := compute_failure_names_failing_block failEx [okNode1, okNode2]
    [postNode] badNode [3] [[1, 2], [3, 4]] [("air", [0]), ("air", [1])]
    "boom" rfl rfl rfl
  ⟨h.1, h.2.2⟩

/-- Claim C10: the low-level blockwise apply operation refuses a lazy
chunked-buffer-backed input when no dask execution hint is given,
raising an error rather than computing or materializing; with the
explicit allowed or parallelized hints the lazy input is accepted and
the result stays lazy with no side effects. -/
theorem apply_ufunc_requires_dask_hint (f : List Rat → List Rat) (a : LArr)
    (hl : a.buffer.isConcrete = false) :
    (∃ m, apply_ufunc f Option.none a = Except.error (CoreError.daskRefused m)) ∧
    (∃ r, apply_ufunc f (Option.some DaskMode.allowed) a = Except.ok r ∧
      r.1.buffer.isConcrete = false ∧ r.2 = []) ∧
    (∃ r, apply_ufunc f (Option.some DaskMode.parallelized) a = Except.ok r ∧
      r.1.buffer.isConcrete = false ∧ r.2 = []) := by
  cases hb : a.buffer with
  | concrete d => rw [hb] at hl; cases hl
  | lazy g outs =>
      refine ⟨⟨"apply_ufunc encountered a chunked array and no dask hint was given",
        ?_⟩, ?_, ?_⟩
      · simp [apply_ufunc, hb]
      · refine ⟨layerWhole "apply_ufunc" f a, ?_, rfl, rfl⟩
        simp [apply_ufunc, hb]
      · refine ⟨layerBlockwise "apply_ufunc" f a, ?_, rfl, rfl⟩
        simp [apply_ufunc, hb]

/-- Witness for claim C10: the example lazy array is refused by the
apply operation without a hint and accepted lazily with the allowed
hint. -/
theorem apply_ufunc_requires_dask_hint_witness :
    lazyEx.buffer.isConcrete = false ∧
    (∃ m, apply_ufunc id Option.none lazyEx =
      Except.error (CoreError.daskRefused m)) ∧
    (∃ r, apply_ufunc id (Option.some DaskMode.allowed) lazyEx = Except.ok r ∧
      r.1.buffer.isConcrete = false ∧ r.2 = []) :=
  have h := apply_ufunc_requires_dask_hint id lazyEx rfl
  ⟨rfl, h.1, h.2.1⟩

/-- Claim C6: with no template the blockwise mapper invokes the user
function exactly once, on the zero-sized slice of the input, before
building the graph: on failure of that probe the mapper fails with an
InferenceError, on success the observed structure becomes the output
metadata.  An explicit template bypasses the probe entirely (zero
invocations) and is trusted as given. -/
theorem map_blocks_probe_once_template_bypasses
    (f : UserFn) (a : LArr) (dt : DType) :
    (map_blocks f a dt Option.none).2 = 1 ∧
    (∀ t, (map_blocks f a dt (Option.some t)).2 = 0) ∧
    (∀ m, f.run (zeroSlice a dt) = Except.error m →
      (map_blocks f a dt Option.none).1 = Except.error (CoreError.inference m)) ∧
    (∀ probe, f.run (zeroSlice a dt) = Except.ok probe →
      (map_blocks f a dt Option.none).1 =
        Except.ok (buildMapBlocks f a dt (templateOf probe))) ∧
    (∀ t, (map_blocks f a dt (Option.some t)).1 =
      Except.ok (buildMapBlocks f a dt t)) := by
  refine ⟨?_, fun t => rfl, ?_, ?_, fun t => rfl⟩
  · unfold map_blocks
    cases h : f.run (zeroSlice a dt) <;> rfl
  · intro m hm
    unfold map_blocks
    rw [hm]
  · intro probe hp
    unfold map_blocks
    rw [hp]

/-- Witness for claim C6: a user function that cannot tolerate empty
input is probed once and yields an InferenceError; an explicit template
suppresses the probe. -/
theorem map_blocks_probe_once_template_bypasses_witness :
    (map_blocks fEmptyFail lazyEx DType.float Option.none).2 = 1 ∧
    (map_blocks fEmptyFail lazyEx DType.float (Option.some tmplEx)).2 = 0 ∧
    (map_blocks fEmptyFail lazyEx DType.float Option.none).1 =
      Except.error (CoreError.inference "empty") ∧
    (map_blocks fEmptyFail lazyEx DType.float (Option.some tmplEx)).1 =
      Except.ok (buildMapBlocks fEmptyFail lazyEx DType.float tmplEx) :=
  have h := map_blocks_probe_once_template_bypasses fEmptyFail lazyEx DType.float
  ⟨h.1, h.2.1 tmplEx, h.2.2.1 "empty" rfl, h.2.2.2.2 tmplEx⟩

/-- Claim C7: for a user function whose output structure does not depend
on data content (the zero-sized probe succeeds and the explicit template
describes the same output the probe observes), automatic inference and
the explicit template build the same lazy object and produce identical
final materialized results. -/
theorem inference_agrees_with_template (f : UserFn) (a : LArr) (dt : DType)
    (probe : NdObj) (hp : f.run (zeroSlice a dt) = Except.ok probe) :
    (map_blocks f a dt Option.none).1 =
      (map_blocks f a dt (Option.some (templateOf probe))).1 ∧
    materializeResult ((map_blocks f a dt Option.none).1) =
      materializeResult
        ((map_blocks f a dt (Option.some (templateOf probe))).1) := by
  have h1 : (map_blocks f a dt Option.none).1 =
      (map_blocks f a dt (Option.some (templateOf probe))).1 := by
    unfold map_blocks
    rw [hp]
  exact ⟨h1, by rw [h1]⟩

/-- Witness for claim C7: for the identity user function, probing and an
explicit template describing the probe's output materialize
identically. -/
theorem inference_agrees_with_template_witness :
    fIdent.run (zeroSlice lazyEx DType.float) =
      Except.ok (zeroSlice lazyEx DType.float) ∧
    materializeResult ((map_blocks fIdent lazyEx DType.float Option.none).1) =
      materializeResult ((map_blocks fIdent lazyEx DType.float
        (Option.some (templateOf (zeroSlice lazyEx DType.float)))).1) :=
  ⟨rfl,
    (inference_agrees_with_template fIdent lazyEx DType.float
      (zeroSlice lazyEx DType.float) rfl).2⟩

/-! ## Properties of the blockwise core-dimension reduction -/

theorem findBlock_snd_le (cuts : List Nat) : ∀ gi, (findBlock cuts gi).2 ≤ gi := by
  induction cuts with
  | nil => intro gi; exact Nat.le_refl gi
  | cons c cs ih =>
      intro gi
      rw [findBlock]
      split
      · exact Nat.le_refl gi
      · exact Nat.le_trans (ih (gi - c)) (Nat.sub_le gi c)

theorem starts_add_offsets (cs : List (List Nat)) :
    ∀ idx, cs.length = idx.length →
      List.zipWith (fun s k => s + k) (blockStarts cs idx) (blockOffsets cs idx) =
        idx := by
  induction cs with
  | nil =>
      intro idx h
      cases idx with
      | nil => rfl
      | cons i idx => simp at h
  | cons c cs ih =>
      intro idx h
      cases idx with
      | nil => simp at h
      | cons i idx =>
          have hlen : cs.length = idx.length := by simpa using h
          show (i - (findBlock c i).2 + (findBlock c i).2) ::
            List.zipWith (fun s k => s + k) (blockStarts cs idx)
              (blockOffsets cs idx) = i :: idx
          rw [Nat.sub_add_cancel (findBlock_snd_le c i), ih idx hlen]

theorem insAt_zipWith (f : Nat → Nat → Nat) :
    ∀ (p : Nat) (x y : Nat) (a b : List Nat), a.length = b.length →
      p ≤ a.length →
      List.zipWith f (insAt p x a) (insAt p y b) =
        insAt p (f x y) (List.zipWith f a b) := by
  intro p
  induction p with
  | zero => intro x y a b hab hp; rfl
  | succ p ih =>
      intro x y a b hab hp
      cases a with
      | nil => exact absurd hp (Nat.not_succ_le_zero p)
      | cons a₀ as =>
          cases b with
          | nil => simp at hab
          | cons b₀ bs =>
              have hab' : as.length = bs.length := by simpa using hab
              have hp' : p ≤ as.length := Nat.le_of_succ_le_succ hp
              show f a₀ b₀ :: List.zipWith f (insAt p x as) (insAt p y bs) = _
              rw [ih x y as bs hab' hp']
              rfl

theorem insAt_getD (x : Nat) :
    ∀ (p : Nat) (l : List Nat), p ≤ l.length → (insAt p x l).getD p 0 = x := by
  intro p
  induction p with
  | zero => intro l hp; rfl
  | succ p ih =>
      intro l hp
      cases l with
      | nil => exact absurd hp (Nat.not_succ_le_zero p)
      | cons y ys =>
          have hp' : p ≤ ys.length := Nat.le_of_succ_le_succ hp
          show (insAt p x ys).getD p 0 = x
          exact ih ys hp'

theorem blockwiseReduce_val (g : List Rat → Rat) (p : Nat) (A : NdArr)
    (cs : List (List Nat)) (idx : List Nat)
    (hlen : (cs.eraseIdx p).length = idx.length) (hpi : p ≤ idx.length) :
    (blockwiseReduce g p A cs).val idx = (reduceAxis g p A).val idx := by
  have hoff : (blockOffsets (cs.eraseIdx p) idx).length = idx.length := by
    simp [blockOffsets, hlen]
  have hst : (blockStarts (cs.eraseIdx p) idx).length = idx.length := by
    simp [blockStarts, hoff]
  have hble : p ≤ (blockLens (cs.eraseIdx p) idx).length := by
    simpa [blockLens, hlen] using hpi
  simp only [blockwiseReduce, reduceAxis, blockAt]
  rw [insAt_getD (A.shape.getD p 0) p (blockLens (cs.eraseIdx p) idx) hble]
  refine congrArg g ?_
  refine congrArg (fun fn => List.map fn (List.range (A.shape.getD p 0))) ?_
  funext j
  show A.val (List.zipWith (fun s k => s + k)
      (insAt p 0 (blockStarts (cs.eraseIdx p) idx))
      (insAt p j (blockOffsets (cs.eraseIdx p) idx))) = A.val (insAt p j idx)
  rw [insAt_zipWith (fun s k => s + k) p 0 j (blockStarts (cs.eraseIdx p) idx)
      (blockOffsets (cs.eraseIdx p) idx) (by rw [hst, hoff])
      (by rw [hst]; exact hpi)]
  rw [starts_add_offsets (cs.eraseIdx p) idx hlen, Nat.zero_add]

/-- Claim C1: a whole-object reduction over a named core dimension,
applied blockwise with the core dimension never split across blocks,
produces a result structurally identical to applying the reduction
directly: the named dimension is removed from the declared dims and
shape, and the values agree exactly at every output coordinate,
regardless of the chunk specification (in particular regardless of how
the core dimension itself was chunked). -/
theorem blockwise_core_reduction_identical
    (g : List Rat → Rat) (A : NdArr) (d : String) (p : Nat)
    (cs : List (List Nat)) (idx : List Nat)
    (hp : p = A.dims.indexOf d) ( _hd : d ∈ A.dims)
    (hlen : (cs.eraseIdx p).length = idx.length) (hpi : p ≤ idx.length) :
    (blockwiseReduce g p A cs).dims = A.dims.eraseIdx (A.dims.indexOf d) ∧
    (blockwiseReduce g p A cs).shape = (reduceAxis g p A).shape ∧
    (blockwiseReduce g p A cs).val idx = (reduceAxis g p A).val idx := by
  subst hp
  exact ⟨rfl, rfl, blockwiseReduce_val g _ A cs idx hlen hpi⟩

/-- Witness for claim C1: the mean over the time dimension of size 5 of
the example three-dimensional array agrees with its blockwise
application both when time is one chunk and when time is five chunks of
size one, and equals the directly computed value. -/
theorem blockwise_core_reduction_identical_witness :
    (blockwiseReduce meanList 1 arrEx [[2], [5], [3]]).val [1, 2] =
      (reduceAxis meanList 1 arrEx).val [1, 2] ∧
    (blockwiseReduce meanList 1 arrEx [[1, 1], [1, 1, 1, 1, 1], [2, 1]]).val
        [1, 2] =
      (reduceAxis meanList 1 arrEx).val [1, 2] ∧
    (reduceAxis meanList 1 arrEx).val [1, 2] = 122 :=
  have h1 := blockwise_core_reduction_identical meanList arrEx "time" 1
    [[2], [5], [3]] [1, 2] (by decide) (by decide) (by decide) (by decide)
  have h2 := blockwise_core_reduction_identical meanList arrEx "time" 1
    [[1, 1], [1, 1, 1, 1, 1], [2, 1]] [1, 2] (by decide) (by decide)
    (by decide) (by decide)
  ⟨h1.2.2, h2.2.2, by norm_num [reduceAxis, arrEx, meanList, insAt, List.range_succ]⟩

/-- Claim C9: writing a labeled dataset to the self-describing container
format and reading it back reproduces a dataset indistinguishable from
the original under the structural-equality check: dimension names,
coordinate arrays, per-variable and per-dataset attributes, and element
types are preserved exactly. -/
theorem to_netcdf_open_dataset_roundtrip (ds : NcDataset) :
    identicalDs (open_dataset (to_netcdf ds)) ds = true := by
  unfold identicalDs open_dataset to_netcdf
  simp [List.filter_append, List.filter_map, Function.comp_def]

end XCore

